import Mathlib

/-!
Verification of the aws-nuke command wiring (`cmd/root.go`) and of the
orchestration/filtering engine it drives.  The CLI wiring is embedded
directly from the source; the engine components that live outside the
checked tree (filters, deletion scheduler, blueprint generator) are
modelled from the specification, as marked on each definition.
-/

namespace AwsNuke

/-- Embeds `awsutil.Credentials` — the fields used by `cmd/root.go`. -/
structure Credentials where
  AccessKeyID : String
  SecretAccessKey : String
  SessionToken : String
  Profile : String
  deriving Repr, DecidableEq

/-- Modelled from the spec: `awsutil.Credentials.HasProfile` is not under
`src/`; the flag help describes `--profile` as the AWS profile name, so
having a profile means the field is non-empty. -/
def Credentials.HasProfile (c : Credentials) : Bool :=
  c.Profile != ""

/-- Modelled from the spec: `awsutil.Credentials.HasKeys` is not under
`src/`; the flag help says the access key id and the secret access key
must be used together, so keys are present when either field is set. -/
def Credentials.HasKeys (c : Credentials) : Bool :=
  c.AccessKeyID != "" || c.SecretAccessKey != ""

/-- Modelled from the spec: the custom-endpoints section of the
configuration, a set of region names; `GetRegion` returns the entry for a
region name or nothing (`config.CustomEndpoints.GetRegion` in the source
returns nil when the region is absent). -/
structure CustomEndpoints where
  regions : List String
  deriving Repr, DecidableEq

def CustomEndpoints.GetRegion (ce : CustomEndpoints) (r : String) : Option String :=
  ce.regions.find? (fun x => x == r)

/-- The loaded nuke configuration, reduced to the parts `cmd/root.go`
touches. -/
structure Config where
  CustomEndpoints : CustomEndpoints
  deriving Repr, DecidableEq

/-- Embeds `awsutil.Account`, opaque to the command layer. -/
structure Account where
  id : String
  deriving Repr, DecidableEq

/-- Embeds `NukeParameters` — the fields bound by the persistent flags in
`NewRootCommand`. -/
structure NukeParameters where
  ConfigPath : String
  Targets : List String
  Excludes : List String
  NoDryRun : Bool
  Force : Bool
  ForceSleep : Nat
  MaxWaitRetries : Nat
  Quiet : Bool
  deriving Repr, DecidableEq

/-- The flag defaults wired in `NewRootCommand` (`cmd/root.go`, the
`PersistentFlags` calls): empty config path, empty target and exclude
lists, `--no-dry-run` false, `--force` false, `--force-sleep` 15,
`--max-wait-retries` 0, `--quiet` false. -/
def defaultParams : NukeParameters :=
  { ConfigPath := ""
    Targets := []
    Excludes := []
    NoDryRun := false
    Force := false
    ForceSleep := 15
    MaxWaitRetries := 0
    Quiet := false }

/-- The `Nuke` value constructed by `buildNuke` via `NewNuke` plus the
`n.Config = config` assignment. -/
structure Nuke where
  params : NukeParameters
  account : Account
  Config : Config
  deriving Repr, DecidableEq

/-- The process-wide mutable state `buildNuke` touches:
`awsutil.DefaultRegionID`. -/
structure Globals where
  DefaultRegionID : String
  deriving Repr, DecidableEq

/-- The external collaborators of `buildNuke`: the process environment and
the outcomes of the out-of-tree calls (`creds.Validate`, `config.Load`,
`awsutil.NewAccount`).  `validate` returns an error message or none. -/
structure World where
  envAccessKeyID : String
  envSecretAccessKey : String
  validate : Credentials → Option String
  loadConfig : String → Except String Config
  newAccount : Credentials → CustomEndpoints → Except String Account

/-- The credential fallback at the top of `buildNuke` (`cmd/root.go`
lines 173-176): when no keys and no profile were given and a default
region was, the access keys are taken from the `AWS_ACCESS_KEY_ID` and
`AWS_SECRET_ACCESS_KEY` environment variables. -/
def effectiveCreds (w : World) (creds : Credentials) (defaultRegion : String) :
    Credentials :=
  if !creds.HasKeys && !creds.HasProfile && defaultRegion != "" then
    { creds with
        AccessKeyID := w.envAccessKeyID
        SecretAccessKey := w.envSecretAccessKey }
  else creds

/-- Embeds `buildNuke` (`cmd/root.go` lines 172-207), with explicit
state passing: returns the credentials after the environment fallback,
the global state after the `awsutil.DefaultRegionID` assignment, and
either the constructed `Nuke` or the first error. -/
def buildNuke (w : World) (params : NukeParameters) (creds : Credentials)
    (defaultRegion : String) (g : Globals) :
    Credentials × Globals × Except String Nuke :=
  let creds := effectiveCreds w creds defaultRegion
  match w.validate creds with
  | some e => (creds, g, Except.error e)
  | none =>
    match w.loadConfig params.ConfigPath with
    | Except.error e => (creds, g, Except.error e)
    | Except.ok config =>
      let g2 := if defaultRegion != "" then { DefaultRegionID := defaultRegion } else g
      if defaultRegion != "" && (config.CustomEndpoints.GetRegion defaultRegion).isNone then
        (creds, g2, Except.error
          ("The custom region " ++ defaultRegion ++
            " must be specified in the configuration endpoints"))
      else
        match w.newAccount creds config.CustomEndpoints with
        | Except.error e => (creds, g2, Except.error e)
        | Except.ok account =>
          (creds, g2, Except.ok { params := params, account := account, Config := config })

/-- Whether an `Except` result is a success. -/
def isOkE {α : Type} (r : Except String α) : Bool :=
  match r with
  | Except.ok _ => true
  | Except.error _ => false

/-- Modelled from the spec: the deletion scheduler of the core engine is
not under `src/`.  Lifecycle states of a `DeletionRecord` between sweeps
(the transient `New`/`Removing` states of the spec state machine exist
only within a sweep and are flattened away): a candidate starts
`pending`, a removal that was issued but not confirmed leaves it
`waiting`, and `removed`, `failed`, `filtered`, `skipped` are terminal. -/
inductive ItemState
  | pending
  | waiting
  | removed
  | failed
  | filtered
  | skipped
  deriving Repr, DecidableEq

def ItemState.isTerminal : ItemState → Bool
  | ItemState.removed => true
  | ItemState.failed => true
  | ItemState.filtered => true
  | ItemState.skipped => true
  | ItemState.pending => false
  | ItemState.waiting => false

/-- Modelled from the spec: a `DeletionRecord` — identifier, lifecycle
state and attempt count, owned by the scheduler for one run. -/
structure DRecord where
  rid : Nat
  state : ItemState
  attempts : Nat
  deriving Repr, DecidableEq

/-- Modelled from the spec: outcome of one `Remove` call against the
resource registry: confirmed success, accepted-but-pending, a transient
error (retried on the next sweep), or an unrecoverable error. -/
inductive ROutcome
  | success
  | pendingR
  | transientError
  | fatalError
  deriving Repr, DecidableEq

/-- Observable events of a run, in order: the classification being
presented, the interactive confirmation prompt, the forced-mode delay,
the start of a sweep, and each `Remove` call. -/
inductive Event
  | present
  | promptAck
  | sleepDelay (secs : Nat)
  | sweepStart (k : Nat)
  | removeCall (rid : Nat)
  deriving Repr, DecidableEq

def Event.isRemoveCall : Event → Bool
  | Event.removeCall _ => true
  | _ => false

def Event.isGate : Event → Bool
  | Event.present => true
  | Event.promptAck => true
  | Event.sleepDelay _ => true
  | _ => false

def Event.isSweepStart : Event → Bool
  | Event.sweepStart _ => true
  | _ => false

/-- Modelled from the spec: one visit of the sweep over one record.  A
terminal record is left alone; a non-terminal record gets a `Remove`
call whose outcome drives the state machine: confirmed success goes to
`removed`, accepted-but-unconfirmed and transient errors go to `waiting`
(retried next sweep), an unrecoverable error goes to `failed`. -/
def stepRecord (rm : Nat → Nat → ROutcome) (k : Nat) (r : DRecord) :
    DRecord × List Event :=
  if r.state.isTerminal then (r, [])
  else
    match rm k r.rid with
    | ROutcome.success =>
      ({ r with state := ItemState.removed, attempts := r.attempts + 1 },
        [Event.removeCall r.rid])
    | ROutcome.pendingR =>
      ({ r with state := ItemState.waiting, attempts := r.attempts + 1 },
        [Event.removeCall r.rid])
    | ROutcome.transientError =>
      ({ r with state := ItemState.waiting, attempts := r.attempts + 1 },
        [Event.removeCall r.rid])
    | ROutcome.fatalError =>
      ({ r with state := ItemState.failed, attempts := r.attempts + 1 },
        [Event.removeCall r.rid])

/-- Number of records a sweep takes from non-terminal to terminal — the
quantity the stuck-detector watches. -/
def sweepProgress (rm : Nat → Nat → ROutcome) (k : Nat) (recs : List DRecord) : Nat :=
  recs.countP (fun r => !r.state.isTerminal && ((stepRecord rm k r).1).state.isTerminal)

/-- When the stuck-detector aborts, remaining non-terminal records are
marked `skipped`. -/
def markSkipped (r : DRecord) : DRecord :=
  if r.state.isTerminal then r else { r with state := ItemState.skipped }

/-- Result of the sweep loop. -/
structure RunOutcome where
  recs : List DRecord
  events : List Event
  aborted : Bool
  converged : Bool
  deriving Repr, DecidableEq

/-- Modelled from the spec: the iterative sweep loop.  Each sweep visits
every non-terminal record once; a counter of consecutive sweeps with
zero non-terminal-to-terminal transitions is kept, and when
`maxWaitRetries` is non-zero and the counter reaches it the run is
aborted with all remaining non-terminal records marked `skipped`.  When
every record is terminal the loop stops, converged.  `fuel` bounds the
number of sweeps so the loop is total; running out of fuel is reported
as neither converged nor aborted. -/
def runSweeps (rm : Nat → Nat → ROutcome) (maxWaitRetries : Nat) :
    Nat → Nat → Nat → List DRecord → RunOutcome
  | 0, _, _, recs =>
    if recs.all (fun r => r.state.isTerminal) then
      { recs := recs, events := [], aborted := false, converged := true }
    else
      { recs := recs, events := [], aborted := false, converged := false }
  | Nat.succ fuel2, k, noProg, recs =>
    if recs.all (fun r => r.state.isTerminal) then
      { recs := recs, events := [], aborted := false, converged := true }
    else
      let recs2 := recs.map (fun r => (stepRecord rm k r).1)
      let evs := Event.sweepStart k :: recs.flatMap (fun r => (stepRecord rm k r).2)
      let noProg2 := if sweepProgress rm k recs = 0 then noProg + 1 else 0
      if maxWaitRetries ≠ 0 ∧ maxWaitRetries ≤ noProg2 then
        { recs := recs2.map markSkipped, events := evs,
          aborted := true, converged := false }
      else
        let out := runSweeps rm maxWaitRetries fuel2 (k + 1) noProg2 recs2
        { recs := out.recs, events := evs ++ out.events,
          aborted := out.aborted, converged := out.converged }

/-- One classified resource handed from the scan/filter pipeline to the
scheduler: its identifier and whether the filter decision protects it. -/
structure ScanItem where
  rid : Nat
  filtered : Bool
  deriving Repr, DecidableEq

/-- The candidate set turned into deletion records: filtered resources
start (and stay) in the terminal `filtered` state, the rest are
`pending` candidates. -/
def initRecords (items : List ScanItem) : List DRecord :=
  items.map (fun it =>
    { rid := it.rid
      state := if it.filtered then ItemState.filtered else ItemState.pending
      attempts := 0 })

/-- Per-resource final states plus whether the stuck-detector fired. -/
structure RunReport where
  recs : List DRecord
  aborted : Bool
  deriving Repr, DecidableEq

/-- External inputs of one run: the `Remove` outcome oracle, the sweep
budget, and whether the operator confirms (acknowledges the prompt, or
lets the forced-mode delay elapse without aborting). -/
structure RunEnv where
  rm : Nat → Nat → ROutcome
  fuel : Nat
  ack : Bool

/-- Modelled from the spec: `Nuke.Run` — the data flow after
classification.  A dry run (`NoDryRun = false`) reports the
classification and stops.  A live run first presents the classification
and passes the confirmation gate (an interactive prompt, or with
`--force` a delay of `ForceSleep` seconds, during which the operator can
still abort), then drives the sweep loop; it errors if the
stuck-detector aborted, if the sweep budget ran out before convergence,
or if any record ended `failed` or `skipped`. -/
def nukeRun (params : NukeParameters) (env : RunEnv) (items : List ScanItem) :
    List Event × Except String RunReport :=
  let recs := initRecords items
  if !params.NoDryRun then
    ([Event.present], Except.ok { recs := recs, aborted := false })
  else
    let gate := if params.Force then [Event.sleepDelay params.ForceSleep]
      else [Event.promptAck]
    if !env.ack then
      (Event.present :: gate, Except.error "aborted by the operator")
    else
      let out := runSweeps env.rm params.MaxWaitRetries env.fuel 1 0 recs
      (Event.present :: gate ++ out.events,
        if out.aborted then Except.error "no progress, run aborted as stuck"
        else if !out.converged then Except.error "sweep budget exhausted"
        else if out.recs.any (fun r =>
            r.state == ItemState.failed || r.state == ItemState.skipped) then
          Except.error "some resources failed or were skipped"
        else Except.ok { recs := out.recs, aborted := false })

/-- Modelled from the spec: `NukeParameters.Validate` is not under
`src/`; the flag help marks `--config` as required, so validation fails
exactly when the config path is empty. -/
def paramsValidate (p : NukeParameters) : Option String :=
  if p.ConfigPath = "" then some "config path required" else none

/-- The root command `RunE` (`cmd/root.go` lines 36-52): validate the
parameters, build the nuke, run it; the process exit status is zero
exactly when this returns no error. -/
def runE (w : World) (params : NukeParameters) (creds : Credentials)
    (defaultRegion : String) (g : Globals) (env : RunEnv) (items : List ScanItem) :
    Except String RunReport :=
  match paramsValidate params with
  | some e => Except.error e
  | none =>
    match (buildNuke w params creds defaultRegion g).2.2 with
    | Except.error e => Except.error e
    | Except.ok _ => (nukeRun params env items).2

/-- Modelled from the spec: the Matcher comparison modes — exact,
contains, glob, regular expression, numeric greater-than/less-than. -/
inductive MatchMode
  | exact
  | contains
  | glob
  | regex
  | greaterThan
  | lessThan
  deriving Repr, DecidableEq

/-- Regular-expression semantics are external to the embedding: a match
oracle and a syntactic-validity oracle (an unparsable regex is a
configuration error at load time). -/
structure RegexSem where
  rmatch : String → String → Bool
  rvalid : String → Bool

/-- Glob matching over character lists: a star matches any run of
characters, everything else matches literally. -/
def globMatch : List Char → List Char → Bool
  | [], [] => true
  | [], _ :: _ => false
  | p :: ps, [] => p == Char.ofNat 42 && globMatch ps []
  | p :: ps, c :: cs =>
    if p == Char.ofNat 42 then globMatch ps (c :: cs) || globMatch (p :: ps) cs
    else p == c && globMatch ps cs
termination_by ps cs => (ps.length, cs.length)

/-- Substring test. -/
def strContains (hay needle : String) : Bool :=
  hay.toList.tails.any (fun t => needle.toList.isPrefixOf t)

/-- Modelled from the spec: a Matcher — a named property, a comparison
mode, a pattern, and a negate flag. -/
structure Matcher where
  property : String
  mode : MatchMode
  pattern : String
  negate : Bool
  deriving Repr, DecidableEq

/-- The mode comparison of a pattern against a present value. -/
def matchBase (sem : RegexSem) (mode : MatchMode) (pattern v : String) : Bool :=
  match mode with
  | MatchMode.exact => v == pattern
  | MatchMode.contains => strContains v pattern
  | MatchMode.glob => globMatch pattern.toList v.toList
  | MatchMode.regex => sem.rmatch pattern v
  | MatchMode.greaterThan =>
    match v.toNat?, pattern.toNat? with
    | some a, some b => decide (b < a)
    | _, _ => false
  | MatchMode.lessThan =>
    match v.toNat?, pattern.toNat? with
    | some a, some b => decide (a < b)
    | _, _ => false

def Matcher.matchValue (sem : RegexSem) (m : Matcher) (v : String) : Bool :=
  matchBase sem m.mode m.pattern v

/-- Evaluation of a Matcher against a present value: the mode comparison,
flipped when `negate` is set. -/
def Matcher.Evaluate (sem : RegexSem) (m : Matcher) (v : String) : Bool :=
  if m.negate then !(m.matchValue sem v) else m.matchValue sem v

/-- Modelled from the spec: a discovered Resource — type name, opaque
stable identifier, optional human-readable label, and a property map. -/
structure Resource where
  rtype : String
  rid : String
  label : String
  props : List (String × String)
  deriving Repr, DecidableEq

/-- The matchable properties of a resource: its stable identifier and
its label are exposed under reserved names ahead of the listed
properties. -/
def Resource.allProps (r : Resource) : List (String × String) :=
  ("Identifier", r.rid) :: ("Name", r.label) :: r.props

/-- Property lookup by name; absent properties yield nothing. -/
def Resource.prop (r : Resource) (k : String) : Option String :=
  (r.allProps.find? (fun p => p.1 == k)).map (fun p => p.2)

/-- The per-field result before negation: an absent property fails to
match, never errors. -/
def baseField (sem : RegexSem) (r : Resource) (m : Matcher) : Bool :=
  match r.prop m.property with
  | some v => m.matchValue sem v
  | none => false

/-- The per-field result: negate flips the base result. -/
def fieldResult (sem : RegexSem) (r : Resource) (m : Matcher) : Bool :=
  match r.prop m.property with
  | some v => if m.negate then !(m.matchValue sem v) else m.matchValue sem v
  | none => if m.negate then true else false

/-- Modelled from the spec: a Filter, a set of field Matchers; it
matches only when every field Matcher matches (AND across fields). -/
structure Filter where
  matchers : List Matcher
  deriving Repr, DecidableEq

def Filter.Evaluate (sem : RegexSem) (f : Filter) (r : Resource) : Bool :=
  f.matchers.all (fun m => fieldResult sem r m)

/-- A filter-configuration document: resource-type name to its filters. -/
def FilterDoc : Type := List (String × List Filter)

/-- The FilterGroup of one type in a document. -/
def groupFor (gs : List (String × List Filter)) (t : String) : List Filter :=
  (gs.filter (fun p => p.1 == t)).flatMap (fun p => p.2)

/-- Modelled from the spec: a resource is filtered (protected) when any
Filter of its type's group matches (OR across Filters). -/
def isFiltered (sem : RegexSem) (gs : List (String × List Filter)) (r : Resource) : Bool :=
  (groupFor gs r.rtype).any (fun f => f.Evaluate sem r)

/-- Modelled from the spec: resolution of the resource-type set before
any scan — a non-empty target list restricts scanning to the listed
types and the exclude list removes types from consideration entirely. -/
def resolveTypes (registry targets excludes : List String) : List String :=
  (if targets.isEmpty then registry
    else registry.filter (fun u => decide (u ∈ targets))).filter
    (fun u => decide (u ∉ excludes))

/-- Modelled from the spec: the scan pipeline invokes the per-type
lister for each enabled resource type. -/
def scan (lister : String → List Resource) (registry targets excludes : List String) :
    List Resource :=
  (resolveTypes registry targets excludes).flatMap lister

/-- A pattern is syntactically valid for its mode; only the regex mode
can fail. -/
def matcherValid (sem : RegexSem) (m : Matcher) : Bool :=
  match m.mode with
  | MatchMode.regex => sem.rvalid m.pattern
  | _ => true

/-- Modelled from the spec: the filter-configuration loader validates
every pattern for its mode; an invalid one is a configuration error. -/
def loadFilterConfig (sem : RegexSem) (doc : List (String × List Filter)) :
    Option (List (String × List Filter)) :=
  if doc.all (fun p => p.2.all (fun f => f.matchers.all (fun m => matcherValid sem m))) then
    some doc
  else none

/-- The blueprint suggestion for one resource: an exact-match Filter
keyed by its stable identifying property; with `includeName` a label
matcher is attached as well. -/
def blueprintEntry (includeName : Bool) (r : Resource) : String × List Filter :=
  (r.rtype,
    [{ matchers :=
        { property := "Identifier", mode := MatchMode.exact,
          pattern := r.rid, negate := false } ::
        (if includeName then
          [{ property := "Name", mode := MatchMode.exact,
             pattern := r.label, negate := false }]
        else []) }])

/-- Modelled from the spec: the blueprint generator runs the scan/filter
pipeline read-only and emits, for every resource whose decision is "not
filtered", a suggested exact-match Filter; with `includeFiltered` the
already-protected resources are listed too. -/
def buildBlueprint (sem : RegexSem) (gs : List (String × List Filter))
    (includeFiltered includeName : Bool) (items : List Resource) :
    List (String × List Filter) :=
  (items.filter (fun r => includeFiltered || !(isFiltered sem gs r))).map
    (blueprintEntry includeName)

/-- The blueprint subcommand flag defaults wired in
`NewAccountBlueprintCommand` (`cmd/root.go` lines 161-167):
`--include-filtered` false, `--include-name` false. -/
def blueprintDefaults : Bool × Bool := (false, false)

/-- Holds when every confirmation-gate event of a trace happens before
the first sweep: after the first sweep-start event no gate event
occurs. -/
def gatePrecedesSweeps : List Event → Bool
  | [] => true
  | e :: rest =>
    if e.isSweepStart then rest.all (fun x => !x.isGate)
    else gatePrecedesSweeps rest

/-- A `Remove` oracle that fails transiently on every call. -/
def alwaysErr : Nat → Nat → ROutcome := fun _ _ => ROutcome.transientError

/-- Sample values used by the concrete witnesses below. -/
def c0 : Credentials :=
  { AccessKeyID := "", SecretAccessKey := "", SessionToken := "", Profile := "" }

def cfg0 : Config := { CustomEndpoints := { regions := [] } }

def wOK : World :=
  { envAccessKeyID := "AKIAENV"
    envSecretAccessKey := "sk-env"
    validate := fun _ => none
    loadConfig := fun _ => Except.ok cfg0
    newAccount := fun _ _ => Except.ok { id := "1" } }

def g0 : Globals := { DefaultRegionID := "us-east-1" }

def liveParams : NukeParameters :=
  { defaultParams with ConfigPath := "nuke-config.yml", NoDryRun := true }

def envStub : RunEnv :=
  { rm := fun _ _ => ROutcome.success, fuel := 3, ack := true }

def sem0 : RegexSem := { rmatch := fun _ _ => false, rvalid := fun _ => true }

def r0 : Resource := { rtype := "Bucket", rid := "b-1", label := "bee", props := [] }

/-! ## Helper lemmas about the sweep loop -/

theorem runSweeps_zero (rm : Nat → Nat → ROutcome) (mwr k np : Nat)
    (recs : List DRecord) :
    runSweeps rm mwr 0 k np recs =
      if recs.all (fun r => r.state.isTerminal) then
        { recs := recs, events := [], aborted := false, converged := true }
      else
        { recs := recs, events := [], aborted := false, converged := false } := by
  simp [runSweeps]

theorem runSweeps_succ (rm : Nat → Nat → ROutcome) (mwr fuel2 k np : Nat)
    (recs : List DRecord) (h : recs.all (fun r => r.state.isTerminal) = false) :
    runSweeps rm mwr (fuel2 + 1) k np recs =
      (if mwr ≠ 0 ∧ mwr ≤ (if sweepProgress rm k recs = 0 then np + 1 else 0) then
        { recs := (recs.map (fun r => (stepRecord rm k r).1)).map markSkipped
          events := Event.sweepStart k :: recs.flatMap (fun r => (stepRecord rm k r).2)
          aborted := true, converged := false }
      else
        { recs := (runSweeps rm mwr fuel2 (k + 1)
            (if sweepProgress rm k recs = 0 then np + 1 else 0)
            (recs.map (fun r => (stepRecord rm k r).1))).recs
          events := Event.sweepStart k ::
            (recs.flatMap (fun r => (stepRecord rm k r).2) ++
              (runSweeps rm mwr fuel2 (k + 1)
                (if sweepProgress rm k recs = 0 then np + 1 else 0)
                (recs.map (fun r => (stepRecord rm k r).1))).events)
          aborted := (runSweeps rm mwr fuel2 (k + 1)
            (if sweepProgress rm k recs = 0 then np + 1 else 0)
            (recs.map (fun r => (stepRecord rm k r).1))).aborted
          converged := (runSweeps rm mwr fuel2 (k + 1)
            (if sweepProgress rm k recs = 0 then np + 1 else 0)
            (recs.map (fun r => (stepRecord rm k r).1))).converged }) := by
  rw [show fuel2 + 1 = Nat.succ fuel2 from rfl]
  rw [runSweeps]
  simp [h]

theorem runSweeps_terminal (rm : Nat → Nat → ROutcome) (mwr fuel k np : Nat)
    (recs : List DRecord) (h : recs.all (fun r => r.state.isTerminal) = true) :
    runSweeps rm mwr fuel k np recs =
      { recs := recs, events := [], aborted := false, converged := true } := by
  cases fuel with
  | zero => simp [runSweeps_zero, h]
  | succ f =>
    rw [show f + 1 = Nat.succ f from rfl, runSweeps]
    simp [h]

theorem runSweeps_recs_length (rm : Nat → Nat → ROutcome) (mwr : Nat) :
    ∀ fuel k np recs,
      ((runSweeps rm mwr fuel k np recs).recs).length = recs.length := by
  intro fuel
  induction fuel with
  | zero =>
    intro k np recs
    rw [runSweeps_zero]
    split
    · rfl
    · rfl
  | succ f ih =>
    intro k np recs
    cases h : recs.all (fun r => r.state.isTerminal) with
    | true => rw [runSweeps_terminal rm mwr (f + 1) k np recs h]
    | false =>
      rw [runSweeps_succ rm mwr f k np recs h]
      split <;> split <;> simp [ih]

theorem runSweeps_converged_char (rm : Nat → Nat → ROutcome) (mwr : Nat) :
    ∀ fuel k np recs,
      (runSweeps rm mwr fuel k np recs).aborted = false →
      ((runSweeps rm mwr fuel k np recs).converged = true ↔
        ((runSweeps rm mwr fuel k np recs).recs).all
          (fun r => r.state.isTerminal) = true) := by
  intro fuel
  induction fuel with
  | zero =>
    intro k np recs _
    rw [runSweeps_zero]
    cases h : recs.all (fun r => r.state.isTerminal) with
    | true => simp [h]
    | false => simp [h]
  | succ f ih =>
    intro k np recs hab
    cases h : recs.all (fun r => r.state.isTerminal) with
    | true => rw [runSweeps_terminal rm mwr (f + 1) k np recs h]; simp [h]
    | false =>
      rw [runSweeps_succ rm mwr f k np recs h] at hab ⊢
      by_cases hc : mwr ≠ 0 ∧ mwr ≤ (if sweepProgress rm k recs = 0 then np + 1 else 0)
      · rw [if_pos hc] at hab
        simp at hab
      · rw [if_neg hc] at hab ⊢
        exact ih (k + 1) (if sweepProgress rm k recs = 0 then np + 1 else 0)
          (recs.map (fun r => (stepRecord rm k r).1)) hab

theorem stepRecord_events_shape (rm : Nat → Nat → ROutcome) (k : Nat) (r : DRecord) :
    (stepRecord rm k r).2 = [] ∨ (stepRecord rm k r).2 = [Event.removeCall r.rid] := by
  unfold stepRecord
  split
  · exact Or.inl rfl
  · cases rm k r.rid <;> exact Or.inr rfl

theorem sweep_events_plain (rm : Nat → Nat → ROutcome) (k : Nat) (recs : List DRecord) :
    (recs.flatMap (fun r => (stepRecord rm k r).2)).all
      (fun e => !e.isGate && !e.isSweepStart) = true := by
  rw [List.all_eq_true]
  intro e he
  rw [List.mem_flatMap] at he
  obtain ⟨r, _, hr⟩ := he
  rcases stepRecord_events_shape rm k r with hs | hs <;> rw [hs] at hr
  · simp at hr
  · rw [List.mem_singleton] at hr
    subst hr
    rfl

theorem runSweeps_events_plain (rm : Nat → Nat → ROutcome) (mwr : Nat) :
    ∀ fuel k np recs,
      ((runSweeps rm mwr fuel k np recs).events).all (fun e => !e.isGate) = true := by
  intro fuel
  induction fuel with
  | zero =>
    intro k np recs
    rw [runSweeps_zero]
    split
    · rfl
    · rfl
  | succ f ih =>
    intro k np recs
    cases h : recs.all (fun r => r.state.isTerminal) with
    | true => rw [runSweeps_terminal rm mwr (f + 1) k np recs h]; rfl
    | false =>
      rw [runSweeps_succ rm mwr f k np recs h]
      have hplain := sweep_events_plain rm k recs
      rw [List.all_eq_true] at hplain
      have hflat : (recs.flatMap (fun r => (stepRecord rm k r).2)).all
          (fun e => !e.isGate) = true := by
        rw [List.all_eq_true]
        intro e he
        exact Bool.and_elim_left (hplain e he)
      split <;> split <;>
        simp only [List.all_cons, List.all_append, Bool.and_eq_true]
      · exact And.intro rfl hflat
      · exact And.intro rfl (And.intro hflat (ih _ _ _))
      · exact And.intro rfl hflat
      · exact And.intro rfl (And.intro hflat (ih _ _ _))

/-! ## Claims about buildNuke -/

/-- C10: credentials are read from the environment variables exactly
when no access keys were given, no profile was given, and a non-empty
default region was given; in every other case the explicitly supplied
credentials are used as-is, and `buildNuke` validates exactly the
credentials after this fallback. -/
theorem env_credentials_condition (w : World) (p : NukeParameters)
    (c : Credentials) (dr : String) (g : Globals) :
    (c.AccessKeyID = "" ∧ c.SecretAccessKey = "" ∧ c.Profile = "" ∧ dr ≠ "" →
      effectiveCreds w c dr =
        { c with AccessKeyID := w.envAccessKeyID
                 SecretAccessKey := w.envSecretAccessKey }) ∧
    ((c.AccessKeyID ≠ "" ∨ c.SecretAccessKey ≠ "" ∨ c.Profile ≠ "" ∨ dr = "") →
      effectiveCreds w c dr = c) ∧
    (∀ e, w.validate (effectiveCreds w c dr) = some e →
      (buildNuke w p c dr g).2.2 = Except.error e) := by
  refine ⟨?_, ?_, ?_⟩
  · rintro ⟨h1, h2, h3, h4⟩
    simp [effectiveCreds, Credentials.HasKeys, Credentials.HasProfile, h1, h2, h3, h4]
  · intro h
    rcases h with h | h | h | h <;>
      simp [effectiveCreds, Credentials.HasKeys, Credentials.HasProfile, h]
  · intro e he
    simp [buildNuke, he]

theorem env_credentials_condition_witness :
    effectiveCreds wOK c0 "us-east-1" =
      { c0 with AccessKeyID := wOK.envAccessKeyID
                SecretAccessKey := wOK.envSecretAccessKey } :=
  (env_credentials_condition wOK defaultParams c0 "us-east-1" g0).1
    ⟨rfl, rfl, rfl, by decide⟩

/-- C9: with a non-empty default region that is absent from the
configuration's endpoints section, `buildNuke` fails (no Nuke is
constructed), yet the global `DefaultRegionID` was already set to the
given value before the check. -/
theorem default_region_endpoint_check (w : World) (p : NukeParameters)
    (c : Credentials) (dr : String) (g : Globals) (cfg : Config)
    (hdr : dr ≠ "")
    (hv : w.validate (effectiveCreds w c dr) = none)
    (hl : w.loadConfig p.ConfigPath = Except.ok cfg)
    (hr : cfg.CustomEndpoints.GetRegion dr = none) :
    isOkE (buildNuke w p c dr g).2.2 = false ∧
    (buildNuke w p c dr g).2.1.DefaultRegionID = dr := by
  simp [buildNuke, hv, hl, hdr, hr, isOkE]

theorem default_region_endpoint_check_witness :
    isOkE (buildNuke wOK defaultParams c0 "moon-1" g0).2.2 = false ∧
    (buildNuke wOK defaultParams c0 "moon-1" g0).2.1.DefaultRegionID = "moon-1" :=
  default_region_endpoint_check wOK defaultParams c0 "moon-1" g0 cfg0
    (by decide) rfl rfl rfl

/-- C5 counterexample: credential validation, config-file loading and
account bootstrap all succeed, yet `buildNuke` still returns an error —
the default-region custom-endpoint check fails. -/
theorem buildNuke_fails_beyond_enumerated :
    wOK.validate (effectiveCreds wOK c0 "moon-1") = none ∧
    wOK.loadConfig defaultParams.ConfigPath = Except.ok cfg0 ∧
    wOK.newAccount (effectiveCreds wOK c0 "moon-1") cfg0.CustomEndpoints =
      Except.ok { id := "1" } ∧
    isOkE (buildNuke wOK defaultParams c0 "moon-1" g0).2.2 = false := by
  exact ⟨rfl, rfl, rfl, by decide⟩

/-- C5 (amended): `buildNuke` succeeds exactly when credential
validation, config-file loading, the default-region custom-endpoint
check and account bootstrap all succeed — it errors (and no Nuke is
constructed) exactly when one of these four fails; and the sweep loop
accounts for every record in the final report (removal errors are
accumulated there, never dropping a record or raising individually). -/
theorem buildNuke_fatal_characterization (w : World) (p : NukeParameters)
    (c : Credentials) (dr : String) (g : Globals) :
    (isOkE (buildNuke w p c dr g).2.2 = true ↔
      (w.validate (effectiveCreds w c dr) = none ∧
        ∃ cfg, w.loadConfig p.ConfigPath = Except.ok cfg ∧
          (dr = "" ∨ (cfg.CustomEndpoints.GetRegion dr).isSome = true) ∧
          ∃ a, w.newAccount (effectiveCreds w c dr) cfg.CustomEndpoints =
            Except.ok a)) ∧
    (∀ rm mwr fuel k np recs,
      ((runSweeps rm mwr fuel k np recs).recs).length = recs.length) := by
  constructor
  · cases hv : w.validate (effectiveCreds w c dr) with
    | some e => simp [buildNuke, hv, isOkE]
    | none =>
      cases hl : w.loadConfig p.ConfigPath with
      | error e => simp [buildNuke, hv, hl, isOkE]
      | ok cfg =>
        by_cases hdr : dr = ""
        · subst hdr
          cases ha : w.newAccount (effectiveCreds w c "") cfg.CustomEndpoints with
          | error e => simp [buildNuke, hv, hl, ha, isOkE]
          | ok a => simp [buildNuke, hv, hl, ha, isOkE]
        · cases hreg : cfg.CustomEndpoints.GetRegion dr with
          | none => simp [buildNuke, hv, hl, hdr, hreg, isOkE]
          | some rr =>
            cases ha : w.newAccount (effectiveCreds w c dr) cfg.CustomEndpoints with
            | error e => simp [buildNuke, hv, hl, hdr, hreg, ha, isOkE]
            | ok a => simp [buildNuke, hv, hl, hdr, hreg, ha, isOkE]
  · exact fun rm mwr fuel k np recs => runSweeps_recs_length rm mwr fuel k np recs

/-! ## Claims about the run pipeline -/

theorem gatePrecedesSweeps_of_plain (l : List Event)
    (h : l.all (fun e => !e.isGate) = true) : gatePrecedesSweeps l = true := by
  induction l with
  | nil => rfl
  | cons e rest ih =>
    rw [List.all_cons, Bool.and_eq_true] at h
    unfold gatePrecedesSweeps
    split
    · exact List.all_eq_true.mpr (fun x hx => (List.all_eq_true.mp h.2) x hx)
    · exact ih h.2

/-- C1: without `--no-dry-run` (the flag defaults to false) the run only
classifies and reports the candidates: the trace contains no `Remove`
call and the result is the classification report. -/
theorem dry_run_no_remove (params : NukeParameters) (env : RunEnv)
    (items : List ScanItem) (h : params.NoDryRun = false) :
    ((nukeRun params env items).1).countP Event.isRemoveCall = 0 ∧
    (nukeRun params env items).2 =
      Except.ok { recs := initRecords items, aborted := false } ∧
    defaultParams.NoDryRun = false := by
  refine ⟨?_, ?_, rfl⟩
  · simp [nukeRun, h, List.countP_cons, List.countP_nil, Event.isRemoveCall]
  · simp [nukeRun, h]

theorem dry_run_no_remove_witness :
    ((nukeRun defaultParams envStub [{ rid := 0, filtered := false }]).1).countP
      Event.isRemoveCall = 0 :=
  (dry_run_no_remove defaultParams envStub [{ rid := 0, filtered := false }] rfl).1

/-- C4: in a live run the whole confirmation gate happens before the
first sweep: the classification is presented, then without `--force` an
interactive acknowledgment is required, with `--force` a delay of
`ForceSleep` seconds (flag default 15) is waited, and only then do
sweeps start; when the operator does not confirm, no sweep happens and
the run fails. -/
theorem confirmation_gate_before_sweeps (params : NukeParameters)
    (env : RunEnv) (items : List ScanItem) (h : params.NoDryRun = true) :
    gatePrecedesSweeps ((nukeRun params env items).1) = true ∧
    Event.present ∈ (nukeRun params env items).1 ∧
    (params.Force = false → Event.promptAck ∈ (nukeRun params env items).1) ∧
    (params.Force = true →
      Event.sleepDelay params.ForceSleep ∈ (nukeRun params env items).1) ∧
    (env.ack = false →
      ((nukeRun params env items).1).countP Event.isSweepStart = 0 ∧
      isOkE (nukeRun params env items).2 = false) ∧
    defaultParams.ForceSleep = 15 := by
  have hshape : (nukeRun params env items).1 =
      Event.present ::
        ((if params.Force then [Event.sleepDelay params.ForceSleep]
          else [Event.promptAck]) ++
          (if env.ack then
            (runSweeps env.rm params.MaxWaitRetries env.fuel 1 0
              (initRecords items)).events
          else [])) := by
    cases hack : env.ack <;> cases hf : params.Force <;> simp [nukeRun, h, hack, hf]
  have hplain := runSweeps_events_plain env.rm params.MaxWaitRetries env.fuel 1 0
    (initRecords items)
  have hgps : gatePrecedesSweeps ((runSweeps env.rm params.MaxWaitRetries env.fuel 1 0
      (initRecords items)).events) = true := gatePrecedesSweeps_of_plain _ hplain
  refine ⟨?_, ?_, ?_, ?_, ?_, rfl⟩
  · rw [hshape]
    cases hack : env.ack <;> cases hf : params.Force <;>
      simp [gatePrecedesSweeps, Event.isSweepStart, hgps, hplain]
  · rw [hshape]
    exact List.mem_cons_self _ _
  · intro hf
    rw [hshape, hf]
    simp
  · intro hf
    rw [hshape, hf]
    simp
  · intro hack
    constructor
    · rw [hshape, hack]
      cases hf : params.Force <;>
        simp [List.countP_cons, List.countP_nil, Event.isSweepStart]
    · simp [nukeRun, h, hack, isOkE]

theorem confirmation_gate_before_sweeps_witness :
    gatePrecedesSweeps ((nukeRun liveParams envStub
      [{ rid := 0, filtered := false }]).1) = true ∧
    Event.promptAck ∈ (nukeRun liveParams envStub
      [{ rid := 0, filtered := false }]).1 :=
  ⟨(confirmation_gate_before_sweeps liveParams envStub
      [{ rid := 0, filtered := false }] rfl).1,
    (confirmation_gate_before_sweeps liveParams envStub
      [{ rid := 0, filtered := false }] rfl).2.2.1 rfl⟩

theorem state_rf_terminal : ∀ s : ItemState,
    (s == ItemState.removed || s == ItemState.filtered) = true →
    s.isTerminal = true := by
  intro s
  cases s <;> decide

theorem terminal_no_fail_iff (recs : List DRecord) :
    (recs.all (fun r => r.state.isTerminal) = true ∧
      recs.any (fun r =>
        r.state == ItemState.failed || r.state == ItemState.skipped) = false) ↔
    recs.all (fun r =>
      r.state == ItemState.removed || r.state == ItemState.filtered) = true := by
  have hpt : ∀ s : ItemState,
      ((s.isTerminal = true ∧
          (s == ItemState.failed || s == ItemState.skipped) = false) ↔
        (s == ItemState.removed || s == ItemState.filtered) = true) := by
    intro s
    cases s <;> decide
  rw [List.all_eq_true, List.all_eq_true, List.any_eq_false]
  constructor
  · rintro ⟨h1, h2⟩ r hr
    refine (hpt r.state).mp ⟨h1 r hr, ?_⟩
    have := h2 r hr
    simpa using this
  · intro hall
    refine ⟨fun r hr => ((hpt r.state).mpr (hall r hr)).1, fun r hr => ?_⟩
    have := ((hpt r.state).mpr (hall r hr)).2
    simp [this]

theorem all_rf_false_of_not_terminal (recs : List DRecord)
    (h : recs.all (fun r => r.state.isTerminal) = false) :
    recs.all (fun r =>
      r.state == ItemState.removed || r.state == ItemState.filtered) = false := by
  cases hx : recs.all (fun r =>
      r.state == ItemState.removed || r.state == ItemState.filtered) with
  | false => rfl
  | true =>
    exfalso
    have ht : recs.all (fun r => r.state.isTerminal) = true := by
      rw [List.all_eq_true] at hx ⊢
      exact fun r hr => state_rf_terminal r.state (hx r hr)
    rw [ht] at h
    exact Bool.noConfusion h

theorem all_rf_false_of_any_fail (recs : List DRecord)
    (h : recs.any (fun r =>
      r.state == ItemState.failed || r.state == ItemState.skipped) = true) :
    recs.all (fun r =>
      r.state == ItemState.removed || r.state == ItemState.filtered) = false := by
  cases hx : recs.all (fun r =>
      r.state == ItemState.removed || r.state == ItemState.filtered) with
  | false => rfl
  | true =>
    exfalso
    have := ((terminal_no_fail_iff recs).mpr hx).2
    rw [this] at h
    exact Bool.noConfusion h

/-- C2: the process exit status (zero exactly when `RunE` returns no
error).  In a live run it is zero exactly when parameter validation and
`buildNuke` succeeded, the operator confirmed, the stuck-detector did
not abort, and every record ended `removed` or `filtered` — so any
`failed` or `skipped` record, a stuck abort, or a configuration or
credential error makes it non-zero.  In a dry run it is zero exactly
when validation and `buildNuke` succeeded. -/
theorem exit_status_characterization (w : World) (params : NukeParameters)
    (creds : Credentials) (dr : String) (g : Globals) (env : RunEnv)
    (items : List ScanItem) :
    (params.NoDryRun = true →
      (isOkE (runE w params creds dr g env items) = true ↔
        (paramsValidate params = none ∧
          isOkE (buildNuke w params creds dr g).2.2 = true ∧
          env.ack = true ∧
          (runSweeps env.rm params.MaxWaitRetries env.fuel 1 0
            (initRecords items)).aborted = false ∧
          ((runSweeps env.rm params.MaxWaitRetries env.fuel 1 0
            (initRecords items)).recs).all (fun r =>
              r.state == ItemState.removed ||
              r.state == ItemState.filtered) = true))) ∧
    (params.NoDryRun = false →
      (isOkE (runE w params creds dr g env items) = true ↔
        (paramsValidate params = none ∧
          isOkE (buildNuke w params creds dr g).2.2 = true))) := by
  constructor
  · intro hlive
    cases hpv : paramsValidate params with
    | some e => simp [runE, hpv, isOkE]
    | none =>
      cases hb : (buildNuke w params creds dr g).2.2 with
      | error e => simp [runE, hpv, hb, isOkE]
      | ok n =>
        have hisok : isOkE (buildNuke w params creds dr g).2.2 = true := by
          rw [hb]
          rfl
        have hrE : runE w params creds dr g env items =
            (nukeRun params env items).2 := by
          simp [runE, hpv, hb]
        cases hack : env.ack with
        | false => simp [hrE, nukeRun, hlive, hack, isOkE, hpv, hisok]
        | true =>
          have hnr : (nukeRun params env items).2 =
              (if (runSweeps env.rm params.MaxWaitRetries env.fuel 1 0
                  (initRecords items)).aborted then
                Except.error "no progress, run aborted as stuck"
              else if !(runSweeps env.rm params.MaxWaitRetries env.fuel 1 0
                  (initRecords items)).converged then
                Except.error "sweep budget exhausted"
              else if (runSweeps env.rm params.MaxWaitRetries env.fuel 1 0
                  (initRecords items)).recs.any (fun r =>
                    r.state == ItemState.failed ||
                    r.state == ItemState.skipped) then
                Except.error "some resources failed or were skipped"
              else Except.ok { recs := (runSweeps env.rm params.MaxWaitRetries
                env.fuel 1 0 (initRecords items)).recs, aborted := false }) := by
            simp [nukeRun, hlive, hack]
          rw [hrE, hnr]
          cases hab : (runSweeps env.rm params.MaxWaitRetries env.fuel 1 0
              (initRecords items)).aborted with
          | true => simp [isOkE, hab, hpv, hisok, hack]
          | false =>
            have hchar := runSweeps_converged_char env.rm params.MaxWaitRetries
              env.fuel 1 0 (initRecords items) hab
            cases hconv : (runSweeps env.rm params.MaxWaitRetries env.fuel 1 0
                (initRecords items)).converged with
            | false =>
              have hterm : (runSweeps env.rm params.MaxWaitRetries env.fuel 1 0
                  (initRecords items)).recs.all
                    (fun r => r.state.isTerminal) = false := by
                cases hx : (runSweeps env.rm params.MaxWaitRetries env.fuel 1 0
                    (initRecords items)).recs.all (fun r => r.state.isTerminal) with
                | false => rfl
                | true =>
                  exfalso
                  rw [hchar.mpr hx] at hconv
                  exact Bool.noConfusion hconv
              have hrf := all_rf_false_of_not_terminal _ hterm
              simp [isOkE, hab, hconv, hpv, hisok, hack, hrf]
            | true =>
              have hterm := hchar.mp hconv
              cases hany : (runSweeps env.rm params.MaxWaitRetries env.fuel 1 0
                  (initRecords items)).recs.any (fun r =>
                    r.state == ItemState.failed ||
                    r.state == ItemState.skipped) with
              | true =>
                have hrf := all_rf_false_of_any_fail _ hany
                simp [isOkE, hab, hconv, hany, hpv, hisok, hack, hrf]
              | false =>
                have hrf := (terminal_no_fail_iff _).mp ⟨hterm, hany⟩
                simp [isOkE, hab, hconv, hany, hpv, hisok, hack, hrf]
  · intro hdry
    cases hpv : paramsValidate params with
    | some e => simp [runE, hpv, isOkE]
    | none =>
      cases hb : (buildNuke w params creds dr g).2.2 with
      | error e => simp [runE, hpv, hb, isOkE]
      | ok n =>
        have hisok : isOkE (buildNuke w params creds dr g).2.2 = true := by
          rw [hb]
          rfl
        simp [runE, hpv, hb, nukeRun, hdry, isOkE, hisok]

theorem exit_status_characterization_witness :
    isOkE (runE wOK liveParams c0 "" g0 envStub
      [{ rid := 0, filtered := false }]) = true :=
  ((exit_status_characterization wOK liveParams c0 "" g0 envStub
    [{ rid := 0, filtered := false }]).1 rfl).mpr
    ⟨rfl, by decide, rfl, by decide, by decide⟩

theorem stepRecord_err (rm : Nat → Nat → ROutcome)
    (herr : ∀ j i, rm j i = ROutcome.transientError) (k : Nat) (r : DRecord)
    (h : r.state.isTerminal = false) :
    (stepRecord rm k r).1 =
      { r with state := ItemState.waiting, attempts := r.attempts + 1 } := by
  simp [stepRecord, herr, h]

theorem sweepProgress_err (rm : Nat → Nat → ROutcome)
    (herr : ∀ j i, rm j i = ROutcome.transientError) (k : Nat)
    (recs : List DRecord) : sweepProgress rm k recs = 0 := by
  unfold sweepProgress
  rw [List.countP_eq_zero]
  intro r _
  cases h : r.state.isTerminal with
  | true => simp [h]
  | false => simp [h, stepRecord_err rm herr k r h, ItemState.isTerminal]

theorem all_terminal_false_of_nonterminal (recs : List DRecord) (hne : recs ≠ [])
    (h : recs.all (fun r => !r.state.isTerminal) = true) :
    recs.all (fun r => r.state.isTerminal) = false := by
  cases recs with
  | nil => exact absurd rfl hne
  | cons r t =>
    rw [List.all_cons, Bool.and_eq_true] at h
    rw [List.all_cons]
    have hr : r.state.isTerminal = false := by simpa using h.1
    simp [hr]

theorem sweep_events_no_sweepstart (rm : Nat → Nat → ROutcome) (k : Nat)
    (recs : List DRecord) :
    (recs.flatMap (fun r => (stepRecord rm k r).2)).countP Event.isSweepStart = 0 := by
  rw [List.countP_eq_zero]
  intro e he
  have hp := List.all_eq_true.mp (sweep_events_plain rm k recs) e he
  rw [Bool.and_eq_true] at hp
  simpa using hp.2

theorem stuck_aux (rm : Nat → Nat → ROutcome)
    (herr : ∀ j i, rm j i = ROutcome.transientError) (N : Nat) (hN : N ≠ 0) :
    ∀ fuel np k recs, np < N → N - np ≤ fuel → recs ≠ [] →
      recs.all (fun r => !r.state.isTerminal) = true →
      (runSweeps rm N fuel k np recs).aborted = true ∧
      ((runSweeps rm N fuel k np recs).recs).all
        (fun r => r.state == ItemState.skipped) = true ∧
      ((runSweeps rm N fuel k np recs).events).countP Event.isSweepStart = N - np := by
  intro fuel
  induction fuel with
  | zero =>
    intro np k recs hnp hfuel hne hnt
    exfalso
    omega
  | succ f ih =>
    intro np k recs hnp hfuel hne hnt
    have hterm := all_terminal_false_of_nonterminal recs hne hnt
    have hsp := sweepProgress_err rm herr k recs
    have h00 : (if sweepProgress rm k recs = 0 then np + 1 else 0) = np + 1 := by
      rw [hsp]
      simp
    rw [runSweeps_succ rm N f k np recs hterm, h00]
    have hntall := List.all_eq_true.mp hnt
    by_cases hlast : N ≤ np + 1
    · rw [if_pos ⟨hN, hlast⟩]
      refine ⟨rfl, ?_, ?_⟩
      · rw [List.all_eq_true]
        intro x hx
        rw [List.map_map, List.mem_map] at hx
        obtain ⟨r, hr, hx⟩ := hx
        have hrnt : r.state.isTerminal = false := by simpa using hntall r hr
        rw [← hx]
        simp [Function.comp, stepRecord_err rm herr k r hrnt, markSkipped,
          ItemState.isTerminal]
      · rw [List.countP_cons, sweep_events_no_sweepstart]
        have : N = np + 1 := by omega
        simp [Event.isSweepStart, this]
    · rw [if_neg (fun hc => hlast hc.2)]
      have hne2 : recs.map (fun r => (stepRecord rm k r).1) ≠ [] := by
        cases recs with
        | nil => exact absurd rfl hne
        | cons r t => simp
      have hnt2 : (recs.map (fun r => (stepRecord rm k r).1)).all
          (fun r => !r.state.isTerminal) = true := by
        rw [List.all_eq_true]
        intro x hx
        rw [List.mem_map] at hx
        obtain ⟨r, hr, hx⟩ := hx
        have hrnt : r.state.isTerminal = false := by simpa using hntall r hr
        rw [← hx, stepRecord_err rm herr k r hrnt]
        rfl
      obtain ⟨h1, h2, h3⟩ := ih (np + 1) (k + 1)
        (recs.map (fun r => (stepRecord rm k r).1))
        (by omega) (by omega) hne2 hnt2
      refine ⟨h1, h2, ?_⟩
      show (Event.sweepStart k ::
        (recs.flatMap (fun r => (stepRecord rm k r).2) ++
          (runSweeps rm N f (k + 1) (np + 1)
            (recs.map (fun r => (stepRecord rm k r).1))).events)).countP
        Event.isSweepStart = N - np
      rw [List.countP_cons, List.countP_append, sweep_events_no_sweepstart, h3]
      simp [Event.isSweepStart]
      omega

theorem runSweeps_mwr_zero_no_abort (rm : Nat → Nat → ROutcome) :
    ∀ fuel k np recs, (runSweeps rm 0 fuel k np recs).aborted = false := by
  intro fuel
  induction fuel with
  | zero =>
    intro k np recs
    rw [runSweeps_zero]
    split
    · rfl
    · rfl
  | succ f ih =>
    intro k np recs
    cases h : recs.all (fun r => r.state.isTerminal) with
    | true => rw [runSweeps_terminal rm 0 (f + 1) k np recs h]
    | false =>
      rw [runSweeps_succ rm 0 f k np recs h]
      rw [if_neg (by simp)]
      exact ih _ _ _

/-- C3: with `MaxWaitRetries = N > 0` and every `Remove` call failing on
every sweep, the scheduler aborts after exactly N consecutive
no-progress sweeps and every record ends `Skipped`; with
`MaxWaitRetries = 0` (the flag default) the stuck detection is disabled
and the loop never aborts on that ground. -/
theorem stuck_detector_spec (N : Nat) :
    (∀ rm fuel k recs, (∀ j i, rm j i = ROutcome.transientError) → N ≠ 0 →
      N ≤ fuel → recs ≠ [] →
      recs.all (fun r => !r.state.isTerminal) = true →
      (runSweeps rm N fuel k 0 recs).aborted = true ∧
      ((runSweeps rm N fuel k 0 recs).recs).all
        (fun r => r.state == ItemState.skipped) = true ∧
      ((runSweeps rm N fuel k 0 recs).events).countP Event.isSweepStart = N) ∧
    (∀ rm fuel k np recs, (runSweeps rm 0 fuel k np recs).aborted = false) ∧
    defaultParams.MaxWaitRetries = 0 := by
  refine ⟨?_, ?_, rfl⟩
  · intro rm fuel k recs herr hN hfuel hne hnt
    have h := stuck_aux rm herr N hN fuel 0 k recs (Nat.pos_of_ne_zero hN)
      (by omega) hne hnt
    simpa using h
  · exact fun rm fuel k np recs => runSweeps_mwr_zero_no_abort rm fuel k np recs

theorem stuck_detector_spec_witness :
    (runSweeps alwaysErr 2 5 1 0
      [{ rid := 0, state := ItemState.pending, attempts := 0 }]).aborted = true ∧
    (runSweeps alwaysErr 0 5 1 0
      [{ rid := 0, state := ItemState.pending, attempts := 0 }]).aborted = false :=
  ⟨((stuck_detector_spec 2).1 alwaysErr 5 1
      [{ rid := 0, state := ItemState.pending, attempts := 0 }]
      (fun _ _ => rfl) (by decide) (by decide) (by decide) (by decide)).1,
    (stuck_detector_spec 2).2.1 alwaysErr 5 1 0
      [{ rid := 0, state := ItemState.pending, attempts := 0 }]⟩

/-! ## Claims about filtering, targeting and the blueprint -/

/-- C6: a resource type on both the target list and the exclude list is
never scanned — the exclude list removes it from the resolved type set
before any filter evaluation, so no scanned resource has that type. -/
theorem exclude_overrides_target (registry targets excludes : List String)
    (lister : String → List Resource) (t : String)
    (hlister : ∀ u r, r ∈ lister u → r.rtype = u)
    (ht : t ∈ targets) (he : t ∈ excludes) :
    t ∉ resolveTypes registry targets excludes ∧
    ∀ r ∈ scan lister registry targets excludes, r.rtype ≠ t := by
  have hmem : t ∉ resolveTypes registry targets excludes := by
    intro hx
    unfold resolveTypes at hx
    rw [List.mem_filter] at hx
    exact (of_decide_eq_true hx.2) he
  refine ⟨hmem, ?_⟩
  intro r hrs hEq
  unfold scan at hrs
  rw [List.mem_flatMap] at hrs
  obtain ⟨u, hu, hru⟩ := hrs
  have hru2 := hlister u r hru
  rw [hru2] at hEq
  subst hEq
  exact hmem hu

def lister0 : String → List Resource :=
  fun u => [{ rtype := u, rid := "i-1", label := "one", props := [] }]

theorem exclude_overrides_target_witness :
    "IAMRole" ∉ resolveTypes ["IAMRole", "S3Bucket"] ["IAMRole"] ["IAMRole"] :=
  (exclude_overrides_target ["IAMRole", "S3Bucket"] ["IAMRole"] ["IAMRole"]
    lister0 "IAMRole"
    (fun u r hr => by
      simp only [lister0, List.mem_singleton] at hr
      rw [hr])
    (by decide) (by decide)).1

theorem fieldResult_negate (sem : RegexSem) (r : Resource) (m : Matcher) :
    fieldResult sem r m =
      if m.negate then !(baseField sem r m) else baseField sem r m := by
  unfold fieldResult baseField
  cases h : r.prop m.property with
  | some v => rfl
  | none => cases m.negate <;> rfl

/-- C7: negate inverts a Matcher: evaluation with `negate=true` is the
boolean negation of evaluating the identical Matcher with
`negate=false`; and inside a Filter the evaluation is the AND over its
fields of the per-field results, negate flipping each before the AND. -/
theorem matcher_negate_inverts (sem : RegexSem) (m : Matcher) (v : String)
    (f : Filter) (r : Resource) :
    Matcher.Evaluate sem { m with negate := true } v =
      !(Matcher.Evaluate sem { m with negate := false } v) ∧
    Filter.Evaluate sem f r =
      f.matchers.all (fun mm =>
        if mm.negate then !(baseField sem r mm) else baseField sem r mm) := by
  constructor
  · simp [Matcher.Evaluate, Matcher.matchValue]
  · unfold Filter.Evaluate
    have hfr : (fun mm => fieldResult sem r mm) =
        (fun mm => if mm.negate then !(baseField sem r mm) else baseField sem r mm) :=
      funext (fun mm => fieldResult_negate sem r mm)
    rw [hfr]

/-- C8: blueprint round-trip — the blueprint output is accepted by the
filter-configuration loader, and under the loaded configuration every
originally non-filtered resource becomes filtered; both blueprint flags
default to false. -/
theorem blueprint_roundtrip (sem : RegexSem) (gs : List (String × List Filter))
    (items : List Resource) (includeFiltered includeName : Bool) (r : Resource)
    (hr : r ∈ items) (hnf : isFiltered sem gs r = false) :
    loadFilterConfig sem (buildBlueprint sem gs includeFiltered includeName items) =
      some (buildBlueprint sem gs includeFiltered includeName items) ∧
    isFiltered sem (buildBlueprint sem gs includeFiltered includeName items) r = true ∧
    blueprintDefaults = (false, false) := by
  refine ⟨?_, ?_, rfl⟩
  · have hvalid : (buildBlueprint sem gs includeFiltered includeName items).all
        (fun p => p.2.all (fun f => f.matchers.all (fun m => matcherValid sem m))) =
          true := by
      rw [List.all_eq_true]
      intro p hp
      unfold buildBlueprint at hp
      rw [List.mem_map] at hp
      obtain ⟨x, _, hpx⟩ := hp
      rw [← hpx]
      unfold blueprintEntry
      cases includeName <;> simp [matcherValid]
    simp [loadFilterConfig, hvalid]
  · have hfilt : r ∈ items.filter
        (fun x => includeFiltered || !(isFiltered sem gs x)) :=
      List.mem_filter.mpr ⟨hr, by rw [hnf]; simp⟩
    have he0 : blueprintEntry includeName r ∈
        buildBlueprint sem gs includeFiltered includeName items :=
      List.mem_map_of_mem _ hfilt
    unfold isFiltered
    rw [List.any_eq_true]
    refine ⟨{ matchers :=
        { property := "Identifier", mode := MatchMode.exact,
          pattern := r.rid, negate := false } ::
        (if includeName then
          [{ property := "Name", mode := MatchMode.exact,
             pattern := r.label, negate := false }]
        else []) }, ?_, ?_⟩
    · unfold groupFor
      rw [List.mem_flatMap]
      refine ⟨blueprintEntry includeName r, ?_, ?_⟩
      · rw [List.mem_filter]
        refine ⟨he0, ?_⟩
        simp [blueprintEntry]
      · simp [blueprintEntry]
    · have hid : Resource.prop r "Identifier" = some r.rid := rfl
      have hname : Resource.prop r "Name" = some r.label := rfl
      cases includeName <;>
        simp [Filter.Evaluate, fieldResult, hid, hname, Matcher.matchValue, matchBase]

theorem blueprint_roundtrip_witness :
    isFiltered sem0 (buildBlueprint sem0 [] false false [r0]) r0 = true :=
  (blueprint_roundtrip sem0 [] [r0] false false r0
    (List.mem_singleton.mpr rfl) rfl).2.1

end AwsNuke
